import Mathlib

/-!
# Verification of the tock-on-titan U2F application layer

This file gives a shallow embedding, in Lean 4, of the parts of the
`google/tock-on-titan` userspace U2F firmware that the checked claims are
about, together with theorems settling those claims.

Bytes and machine words are modelled as `Nat` with explicit `% 2^w`
truncation where the C code truncates; signed 64-bit intermediates (the
`p256_sddigit` borrow in `fips_p256_cmp`) are modelled as `Int` with
floor division standing for the C arithmetic right shift.  Hardware
primitives that live behind the Tock syscall boundary (the SHA-256/HMAC
engine, the AES engine invoked through `fips_aes_block`, the key-ladder)
are parameters of the embedded functions; everything else is translated
from the C sources.

Embedded source files:
* `golf2/apps/u2f_app/cmac.c`        — AES-CMAC (RFC 4493 flavoured)
* `golf2/apps/u2f_app/drbg.c`        — HMAC-DRBG
* `golf2/apps/u2f_app/p256.c`        — p256 digit arithmetic and scalar pick
* `golf2/apps/u2f_app/asn1.c`        — DER length encoder
* `golf2/apps/u2f_app/tock_shims.c`  — AES shim state machine
* `golf2/apps/u2f_app/dcrypto.c` and `userspace/libh1/dcrypto_syscalls.c`
                                      — DCRYPTO fault-cause tables
* `golf2/apps/u2f_app/u2f.c`         — APDU dispatcher, AUTHENTICATE origin check
* `userspace/u2f_app/u2f_transport.c`— U2F HID transport state machine
-/

namespace Cmac

/-- The AES S-box (FIPS 197, figure 7), used to model the hardware AES engine
behind `fips_aes_block`. -/
def sboxTable : List Nat := [
  0x63, 0x7c, 0x77, 0x7b, 0xf2, 0x6b, 0x6f, 0xc5, 0x30, 0x01, 0x67, 0x2b, 0xfe, 0xd7, 0xab, 0x76,
  0xca, 0x82, 0xc9, 0x7d, 0xfa, 0x59, 0x47, 0xf0, 0xad, 0xd4, 0xa2, 0xaf, 0x9c, 0xa4, 0x72, 0xc0,
  0xb7, 0xfd, 0x93, 0x26, 0x36, 0x3f, 0xf7, 0xcc, 0x34, 0xa5, 0xe5, 0xf1, 0x71, 0xd8, 0x31, 0x15,
  0x04, 0xc7, 0x23, 0xc3, 0x18, 0x96, 0x05, 0x9a, 0x07, 0x12, 0x80, 0xe2, 0xeb, 0x27, 0xb2, 0x75,
  0x09, 0x83, 0x2c, 0x1a, 0x1b, 0x6e, 0x5a, 0xa0, 0x52, 0x3b, 0xd6, 0xb3, 0x29, 0xe3, 0x2f, 0x84,
  0x53, 0xd1, 0x00, 0xed, 0x20, 0xfc, 0xb1, 0x5b, 0x6a, 0xcb, 0xbe, 0x39, 0x4a, 0x4c, 0x58, 0xcf,
  0xd0, 0xef, 0xaa, 0xfb, 0x43, 0x4d, 0x33, 0x85, 0x45, 0xf9, 0x02, 0x7f, 0x50, 0x3c, 0x9f, 0xa8,
  0x51, 0xa3, 0x40, 0x8f, 0x92, 0x9d, 0x38, 0xf5, 0xbc, 0xb6, 0xda, 0x21, 0x10, 0xff, 0xf3, 0xd2,
  0xcd, 0x0c, 0x13, 0xec, 0x5f, 0x97, 0x44, 0x17, 0xc4, 0xa7, 0x7e, 0x3d, 0x64, 0x5d, 0x19, 0x73,
  0x60, 0x81, 0x4f, 0xdc, 0x22, 0x2a, 0x90, 0x88, 0x46, 0xee, 0xb8, 0x14, 0xde, 0x5e, 0x0b, 0xdb,
  0xe0, 0x32, 0x3a, 0x0a, 0x49, 0x06, 0x24, 0x5c, 0xc2, 0xd3, 0xac, 0x62, 0x91, 0x95, 0xe4, 0x79,
  0xe7, 0xc8, 0x37, 0x6d, 0x8d, 0xd5, 0x4e, 0xa9, 0x6c, 0x56, 0xf4, 0xea, 0x65, 0x7a, 0xae, 0x08,
  0xba, 0x78, 0x25, 0x2e, 0x1c, 0xa6, 0xb4, 0xc6, 0xe8, 0xdd, 0x74, 0x1f, 0x4b, 0xbd, 0x8b, 0x8a,
  0x70, 0x3e, 0xb5, 0x66, 0x48, 0x03, 0xf6, 0x0e, 0x61, 0x35, 0x57, 0xb9, 0x86, 0xc1, 0x1d, 0x9e,
  0xe1, 0xf8, 0x98, 0x11, 0x69, 0xd9, 0x8e, 0x94, 0x9b, 0x1e, 0x87, 0xe9, 0xce, 0x55, 0x28, 0xdf,
  0x8c, 0xa1, 0x89, 0x0d, 0xbf, 0xe6, 0x42, 0x68, 0x41, 0x99, 0x2d, 0x0f, 0xb0, 0x54, 0xbb, 0x16]

/-- S-box lookup of one byte. -/
def sb (b : Nat) : Nat := sboxTable.getD b 0

/-- Byte-wise XOR of two equal-length byte lists. -/
def xorB (a b : List Nat) : List Nat := List.zipWith (fun x y => x ^^^ y) a b

/-- Multiplication by `x` in GF(2^8) with the AES reduction polynomial. -/
def xtime (b : Nat) : Nat := if b < 128 then 2 * b else ((2 * b) % 256) ^^^ 0x1b

/-- Multiplication by `x + 1` in GF(2^8). -/
def mul3 (b : Nat) : Nat := xtime b ^^^ b

def rotWord (w : List Nat) : List Nat :=
  match w with
  | a :: rest => rest ++ [a]
  | [] => []

def subWord (w : List Nat) : List Nat := w.map sb

/-- The AES round constants. -/
def rcon : List Nat := [0x01, 0x02, 0x04, 0x08, 0x10, 0x20, 0x40, 0x80, 0x1b, 0x36]

/-- One AES-128 key-expansion step; `acc` holds the words generated so far,
most recent first. -/
def ksStep (acc : List (List Nat)) : List (List Nat) :=
  let i := acc.length
  let wPrev := acc.getD 0 []
  let t := if i % 4 = 0 then
             xorB (subWord (rotWord wPrev)) [rcon.getD (i / 4 - 1) 0, 0, 0, 0]
           else wPrev
  xorB (acc.getD 3 []) t :: acc

def ksIter : Nat → List (List Nat) → List (List Nat)
  | 0, acc => acc
  | n + 1, acc => ksIter n (ksStep acc)

/-- Expanded AES-128 key: 44 words, in order. -/
def keyWords (key : List Nat) : List (List Nat) :=
  let w0 := key.take 4
  let w1 := (key.drop 4).take 4
  let w2 := (key.drop 8).take 4
  let w3 := (key.drop 12).take 4
  (ksIter 40 [w3, w2, w1, w0]).reverse

def roundKey (ws : List (List Nat)) (r : Nat) : List Nat :=
  ((ws.drop (4 * r)).take 4).flatten

def subBytes (s : List Nat) : List Nat := s.map sb

/-- ShiftRows on the 16-byte state in AES column-major byte order. -/
def shiftRows (s : List Nat) : List Nat :=
  [0, 5, 10, 15, 4, 9, 14, 3, 8, 13, 2, 7, 12, 1, 6, 11].map (fun i => s.getD i 0)

def mixCol (c : List Nat) : List Nat :=
  match c with
  | [a0, a1, a2, a3] =>
      [xtime a0 ^^^ mul3 a1 ^^^ a2 ^^^ a3,
       a0 ^^^ xtime a1 ^^^ mul3 a2 ^^^ a3,
       a0 ^^^ a1 ^^^ xtime a2 ^^^ mul3 a3,
       mul3 a0 ^^^ a1 ^^^ a2 ^^^ xtime a3]
  | _ => c

def mixColumns (s : List Nat) : List Nat :=
  mixCol (s.take 4) ++ mixCol ((s.drop 4).take 4) ++
  mixCol ((s.drop 8).take 4) ++ mixCol ((s.drop 12).take 4)

def midRound (rk s : List Nat) : List Nat := xorB (mixColumns (shiftRows (subBytes s))) rk

def midRounds : Nat → List (List Nat) → List Nat → List Nat
  | 0, _, s => s
  | n + 1, rks, s => midRounds n (rks.drop 1) (midRound (rks.getD 0 []) s)

/-- AES-128 single-block encryption (FIPS 197).  This models the hardware AES
engine reached through `fips_aes_block` after `fips_aes_init(key, 128, NULL,
AES_CIPHER_MODE_ECB, AES_ENCRYPT_MODE)`. -/
def aes128 (key block : List Nat) : List Nat :=
  let ws := keyWords key
  let s0 := xorB block (roundKey ws 0)
  let s9 := midRounds 9 ((List.range 9).map (fun r => roundKey ws (r + 1))) s0
  xorB (shiftRows (subBytes s9)) (roundKey ws 10)

/-- `_ls1` from `cmac.c`: shift a 16-byte big-endian value left one bit,
XORing `0x87` into the last byte when the shifted-out bit was set.
The C walks indices 15 down to 0 carrying `accu`; `out[i]` takes the low
8 bits and the carry moves on. -/
def ls1 (l : List Nat) : List Nat :=
  let step := fun (b : Nat) (st : Nat × List Nat) =>
    let accu := st.1 ||| (b <<< 1)
    (accu >>> 8, (accu % 256) :: st.2)
  let res := l.foldr step (0, [])
  if res.1 ≠ 0 then res.2.set 15 (res.2.getD 15 0 ^^^ 0x87) else res.2

/-- `_xor` from `cmac.c`: 16-byte in-place XOR. -/
def xor16 (inout inb : List Nat) : List Nat := xorB inout inb

/-- XOR the bytes of `chunk` into the front of `accu` (the `j` loop of
`fips_cmac_generate`), leaving the rest of `accu` unchanged. -/
def xorPartial (accu chunk : List Nat) : List Nat :=
  xorB accu (chunk ++ List.replicate (accu.length - chunk.length) 0)

/-- The per-block loop of `fips_cmac_generate` (`for (i = 0; i < data_len;
i += 16)`).  Each iteration XORs up to 16 data bytes into `accu`; a short
final chunk gets `accu[j] ^= 0x80` then XOR `K2`; a full chunk that ends
the data gets XOR `K1`; then the block is encrypted.  For empty `data` the
loop body never runs, exactly as in the C source.  The 16-deep patterns
separate a full 16-byte chunk (middle arm, recursing on the remainder)
from a short final chunk of 1 to 15 bytes (last arm, no further
iteration). -/
def cmacLoop (E : List Nat → List Nat) (K1 K2 : List Nat) :
    List Nat → List Nat → List Nat
  | accu, [] => accu
  | accu, b0 :: b1 :: b2 :: b3 :: b4 :: b5 :: b6 :: b7 ::
          b8 :: b9 :: b10 :: b11 :: b12 :: b13 :: b14 :: b15 :: rest =>
    let chunk := [b0, b1, b2, b3, b4, b5, b6, b7, b8, b9, b10, b11, b12, b13, b14, b15]
    let a1 := xorPartial accu chunk
    let a2 := if rest.isEmpty then xor16 a1 K1 else a1
    cmacLoop E K1 K2 (E a2) rest
  | accu, short =>
    let a1 := xorPartial accu short
    let a2 := xor16 (a1.set short.length (a1.getD short.length 0 ^^^ 0x80)) K2
    E a2

/-- `fips_cmac_generate` from `cmac.c`, with the AES engine (ECB encryption
under the installed key) abstracted as `E`.  Returns the 16-byte tag; the
AES-failure return paths of the C cannot occur in this model. -/
def fips_cmac_generate (E : List Nat → List Nat) (data : List Nat) : List Nat :=
  let L := E (List.replicate 16 0)
  let K1 := ls1 L
  let K2 := ls1 K1
  cmacLoop E K1 K2 (List.replicate 16 0) data

/-- `fips_cmac_verify` from `cmac.c`: recompute the tag and compare `mac_len`
bytes with an OR-accumulated comparison. -/
def fips_cmac_verify (E : List Nat → List Nat) (data mac : List Nat)
    (mac_len : Nat) : Bool :=
  let tag := fips_cmac_generate E data
  ((List.range mac_len).foldl
    (fun acc i => acc ||| (tag.getD i 0 ^^^ mac.getD i 0)) 0) = 0

/-- Modelled from the spec: the final-block treatment RFC 4493 (and the spec
sentence on `cmac.c`) prescribes for the empty message — pad the empty block
with a single `0x80` byte then zeros, XOR `K2`, and encrypt the accumulator.
This is the value the claim says `fips_cmac_generate` produces on the empty
message. -/
def cmac_spec_empty (E : List Nat → List Nat) : List Nat :=
  let L := E (List.replicate 16 0)
  let K2 := ls1 (ls1 L)
  E (xor16 (0x80 :: List.replicate 15 0) K2)

/-- The fixed RFC 4493 test key `2b7e151628aed2a6abf7158809cf4f3c`. -/
def rfcKey : List Nat :=
  [0x2b, 0x7e, 0x15, 0x16, 0x28, 0xae, 0xd2, 0xa6,
   0xab, 0xf7, 0x15, 0x88, 0x09, 0xcf, 0x4f, 0x3c]

/-- The RFC 4493 64-byte test message (its prefixes give the 16- and 40-byte
messages). -/
def rfcMsg64 : List Nat :=
  [0x6b, 0xc1, 0xbe, 0xe2, 0x2e, 0x40, 0x9f, 0x96,
   0xe9, 0x3d, 0x7e, 0x11, 0x73, 0x93, 0x17, 0x2a,
   0xae, 0x2d, 0x8a, 0x57, 0x1e, 0x03, 0xac, 0x9c,
   0x9e, 0xb7, 0x6f, 0xac, 0x45, 0xaf, 0x8e, 0x51,
   0x30, 0xc8, 0x1c, 0x46, 0xa3, 0x5c, 0xe4, 0x11,
   0xe5, 0xfb, 0xc1, 0x19, 0x1a, 0x0a, 0x52, 0xef,
   0xf6, 0x9f, 0x24, 0x45, 0xdf, 0x4f, 0x9b, 0x17,
   0xad, 0x2b, 0x41, 0x7b, 0xe6, 0x6c, 0x37, 0x10]

/-- Published RFC 4493 tag for the empty message. -/
def rfcTagEmpty : List Nat :=
  [0xbb, 0x1d, 0x69, 0x29, 0xe9, 0x59, 0x37, 0x28,
   0x7f, 0xa3, 0x7d, 0x12, 0x9b, 0x75, 0x67, 0x46]

/-- Published RFC 4493 tag for the 16-byte message. -/
def rfcTag16 : List Nat :=
  [0x07, 0x0a, 0x16, 0xb4, 0x6b, 0x4d, 0x41, 0x44,
   0xf7, 0x9b, 0xdd, 0x9d, 0xd0, 0x4a, 0x28, 0x7c]

/-- Published RFC 4493 tag for the 40-byte message. -/
def rfcTag40 : List Nat :=
  [0xdf, 0xa6, 0x67, 0x47, 0xde, 0x9a, 0xe6, 0x30,
   0x30, 0xca, 0x32, 0x61, 0x14, 0x97, 0xc8, 0x27]

/-- Published RFC 4493 tag for the 64-byte message. -/
def rfcTag64 : List Nat :=
  [0x51, 0xf0, 0xbe, 0xbf, 0x7e, 0x3b, 0x9d, 0x92,
   0xfc, 0x49, 0x74, 0x17, 0x79, 0x36, 0x3c, 0xfe]

end Cmac

namespace Asn1

/-- `asn1_len` from `asn1.c`: DER-encode a length into `p` and return the
number of bytes written.  The pair is (bytes written, return value).
`p[1] = size >> 8` and `p[2] = size` store into `uint8_t`, hence the
`% 256` truncations. -/
def asn1_len (size : Nat) : List Nat × Nat :=
  if size < 128 then ([size], 1)
  else if size < 256 then ([0x81, size], 2)
  else ([0x82, (size >>> 8) % 256, size % 256], 3)

/-- Modelled from the spec: the DER definite-length decoder implied by the
spec's round-trip requirement ("encoding then decoding the DER length must
reproduce `size`").  First byte < 0x80 is a short form; `0x81`/`0x82`
prefix one/two big-endian length bytes. -/
def derLenDecode (bytes : List Nat) : Option Nat :=
  match bytes with
  | b0 :: rest =>
    if b0 < 128 then some b0
    else if b0 = 0x81 then
      match rest with
      | b1 :: _ => some b1
      | [] => none
    else if b0 = 0x82 then
      match rest with
      | b1 :: b2 :: _ => some (b1 * 256 + b2)
      | _ => none
    else none
  | [] => none

end Asn1

namespace Dcrypto

/-- `TOCK_DCRYPTO_ERRORS` from `userspace/libh1/dcrypto_syscalls.c`. -/
def TOCK_DCRYPTO_ERRORS_syscalls : List String :=
  ["?",
   "?",
   "call stack overflow",
   "loop stack underflow",
   "loop stack overflow",
   "data access",
   "?",
   "break",
   "trap",
   "?",
   "fault",
   "mod operand range",
   "unknown"]

/-- `TOCK_DCRYPTO_ERRORS` from `golf2/apps/u2f_app/dcrypto.c`. -/
def TOCK_DCRYPTO_ERRORS_u2f : List String :=
  ["?",
   "?",
   "call stack overflow",
   "loop stack underflow",
   "loop stack overflow",
   "data access",
   "?",
   "break",
   "trap",
   "?",
   "fault",
   "loop mod operand range",
   "unknown"]

/-- `TOCK_DCRYPTO_FAULT_UNKNOWN` (both copies). -/
def TOCK_DCRYPTO_FAULT_UNKNOWN : Nat := 12

/-- `tock_dcrypto_fault_to_str`, over a given copy of the table. -/
def tock_dcrypto_fault_to_str (table : List String) (fault : Nat) : String :=
  if fault ≤ TOCK_DCRYPTO_FAULT_UNKNOWN then table.getD fault "?" else "?"

end Dcrypto

namespace Shims

/-- `AES_CIPHER_MODE_*` from `fips_aes.h`. -/
def AES_CIPHER_MODE_ECB : Nat := 0

def AES_CIPHER_MODE_CTR : Nat := 1

def AES_CIPHER_MODE_CBC : Nat := 2

def AES_CIPHER_MODE_GCM : Nat := 3

/-- `AES_ENCRYPT_MODE` from `fips_aes.h`. -/
def AES_ENCRYPT_MODE : Nat := 1

/-- `AES256_BLOCK_CIPHER_KEY_SIZE` from `fips_aes.h` (bytes). -/
def AES256_BLOCK_CIPHER_KEY_SIZE : Nat := 32

/-- The static state of `tock_shims.c`: the file-scope `encrypt_mode`,
`cipher_mode` and `initialization_vector` statics, plus the key last
installed in the hardware through `tock_aes128_set_key_sync`. -/
structure AesShimState where
  encrypt_mode : Nat
  cipher_mode : Nat
  initialization_vector : Option (List Nat)
  installed_key : Option (List Nat)
deriving Repr, DecidableEq

/-- The initial values of the statics in `tock_shims.c`:
`encrypt_mode = AES_ENCRYPT_MODE`, `cipher_mode = AES_CIPHER_MODE_CTR`,
`initialization_vector = NULL`, no key installed yet. -/
def initShimState : AesShimState :=
  { encrypt_mode := AES_ENCRYPT_MODE
    cipher_mode := AES_CIPHER_MODE_CTR
    initialization_vector := none
    installed_key := none }

/-- `fips_aes_init` from `tock_shims.c`.  Returns the new static state and
the C return value (1 = success, 0 = failure).  Note the C checks the
file-scope static `cipher_mode` (the previous mode), not the `c_mode`
argument, before overwriting the statics; the key-length test divides the
bit length by 8 with truncating integer division. -/
def fips_aes_init (st : AesShimState) (key : List Nat) (key_len : Nat)
    (iv : Option (List Nat)) (c_mode e_mode : Nat) : AesShimState × Nat :=
  if st.cipher_mode ≠ AES_CIPHER_MODE_CTR ∧ st.cipher_mode ≠ AES_CIPHER_MODE_CBC ∧
     st.cipher_mode ≠ AES_CIPHER_MODE_ECB then
    (st, 0)
  else
    let st1 := { st with encrypt_mode := e_mode, cipher_mode := c_mode,
                         initialization_vector := iv }
    let key_len_bytes := key_len / 8
    if key_len_bytes = AES256_BLOCK_CIPHER_KEY_SIZE then
      ({ st1 with installed_key := some key }, 1)
    else if key_len_bytes = AES256_BLOCK_CIPHER_KEY_SIZE / 2 then
      ({ st1 with installed_key := some key }, 1)
    else
      (st1, 0)

end Shims

namespace Drbg

/-- The DRBG state from `drbg.h`: `K` and `V` are `uint32_t[8]`, handled
throughout `drbg.c` as 32-byte buffers (they are only ever `memcpy`ed or
fed to the byte-oriented hardware hash); `reseed_counter` is a `uint32_t`,
modelled as `Nat` (it is reset to 1 well before any overflow). -/
structure DRBG where
  K : List Nat
  V : List Nat
  reseed_counter : Nat
deriving Repr, DecidableEq

/-- The type of the hardware HMAC-SHA-256 engine reached through
`fips_hwHMAC256_init` / `fips_hwSHA256_update` / `fips_hwSHA256_final`:
key bytes and concatenated message bytes to 32 digest bytes. -/
def Hmac : Type := List Nat → List Nat → List Nat

/-- `_updateV` from `drbg.c`: `V = HMAC(K, V)`. -/
def updateV (h : Hmac) (ctx : DRBG) : DRBG :=
  { ctx with V := h ctx.K ctx.V }

/-- `_updateKV` from `drbg.c`: `K = HMAC(K, V ‖ tag ‖ p0 ‖ p1 ‖ p2)`, then
`_updateV`. -/
def updateKV (h : Hmac) (tag : Nat) (p0 p1 p2 : List Nat) (ctx : DRBG) : DRBG :=
  updateV h { ctx with K := h ctx.K (ctx.V ++ [tag] ++ p0 ++ p1 ++ p2) }

/-- `DRBG_update` from `drbg.c`. -/
def DRBG_update (h : Hmac) (p0 p1 p2 : List Nat) (ctx : DRBG) : DRBG :=
  let c1 := updateKV h 0 p0 p1 p2 ctx
  if p0.length + p1.length + p2.length = 0 then c1
  else updateKV h 1 p0 p1 p2 c1

/-- `DRBG_reseed` from `drbg.c`: update, then `reseed_counter = 1`. -/
def DRBG_reseed (h : Hmac) (p0 p1 p2 : List Nat) (ctx : DRBG) : DRBG :=
  { DRBG_update h p0 p1 p2 ctx with reseed_counter := 1 }

/-- `DRBG_init` from `drbg.c`: `K` = 8 zero words, `V` = 8 words of
`0x01010101` (i.e. 32 bytes of `0x01`), then reseed. -/
def DRBG_init (h : Hmac) (p0 p1 p2 : List Nat) : DRBG :=
  DRBG_reseed h p0 p1 p2
    { K := List.replicate 32 0, V := List.replicate 32 1, reseed_counter := 0 }

/-- Structural helper for the `while (output_len)` loop of `DRBG_generate`:
`fuel` only bounds the iteration count (each pass consumes at least one
output byte, so `fuel = rem` suffices) and never runs out on the paths
`genLoop` takes. -/
def genLoopAux (h : Hmac) : Nat → DRBG → Nat → DRBG × List Nat
  | 0, ctx, _ => (ctx, [])
  | fuel + 1, ctx, rem =>
    if rem = 0 then (ctx, [])
    else
      let n := min rem 32
      let c1 := updateV h ctx
      let res := genLoopAux h fuel c1 (rem - n)
      (res.1, c1.V.take n ++ res.2)

/-- The output `while (output_len)` loop of `DRBG_generate`: each pass does
`_updateV` then copies `min(output_len, 32)` bytes of `V`. -/
def genLoop (h : Hmac) (ctx : DRBG) (rem : Nat) : DRBG × List Nat :=
  genLoopAux h rem ctx rem

/-- `DRBG_generate` from `drbg.c`.  Result: (return code, new state,
produced output).  Code 1: `output_len > 7500 / 8` (= 937); code 2:
`reseed_counter >= 10000`; code 0: success, after which the counter has
been incremented. -/
def DRBG_generate (h : Hmac) (ctx : DRBG) (output_len : Nat)
    (input : List Nat) : Nat × DRBG × Option (List Nat) :=
  if output_len > 7500 / 8 then (1, ctx, none)
  else if ctx.reseed_counter ≥ 10000 then (2, ctx, none)
  else
    let c1 := if input.length ≠ 0 then DRBG_update h input [] [] ctx else ctx
    let res := genLoop h c1 output_len
    let c3 := DRBG_update h input [] [] res.1
    (0, { c3 with reseed_counter := c3.reseed_counter + 1 }, some res.2)

/-- State after `k` successive `DRBG_generate` calls (each with the same
requested length and additional input). -/
def genIter (h : Hmac) (output_len : Nat) (input : List Nat) :
    Nat → DRBG → DRBG
  | 0, ctx => ctx
  | k + 1, ctx => genIter h output_len input k (DRBG_generate h ctx output_len input).2.1

/-- Return code of the `(k+1)`-st `DRBG_generate` call (i.e. after `k`
earlier calls), all calls sharing the same length and input. -/
def nthCode (h : Hmac) (output_len : Nat) (input : List Nat) (ctx : DRBG)
    (k : Nat) : Nat :=
  (DRBG_generate h (genIter h output_len input k ctx) output_len input).1

end Drbg

namespace P256

/-- `P256_NDIGITS` = 8 little-endian 32-bit digits (`p256_int.a`). -/
def P256_NDIGITS : Nat := 8

/-- Value of a little-endian digit list (digit 0 least significant). -/
def lval : List Nat → Nat
  | [] => 0
  | d :: ds => d + 2 ^ 32 * lval ds

/-- `FIPS_SECP256r1_n` from `p256.c` (curve order), digits as written there
(`-1` is `0xffffffff` as a `p256_digit`). -/
def FIPS_SECP256r1_n : List Nat :=
  [0xfc632551, 0xf3b9cac2, 0xa7179e84, 0xbce6faad,
   0xffffffff, 0xffffffff, 0x00000000, 0xffffffff]

/-- `FIPS_SECP256r1_nMin2` from `p256.c` (curve order minus 2). -/
def FIPS_SECP256r1_nMin2 : List Nat :=
  [0xfc632551 - 2, 0xf3b9cac2, 0xa7179e84, 0xbce6faad,
   0xffffffff, 0xffffffff, 0x00000000, 0xffffffff]

/-- The digit loop of `fips_p256_cmp`.  `borrow` is the C `p256_sddigit`
(signed 64-bit) accumulator; `borrow >>= 32` is an arithmetic right shift,
i.e. floor division; the `(p256_digit)borrow` cast is `% 2^32`. -/
def cmpLoop : List Nat → List Nat → Int → Bool → Int × Bool
  | a :: as, b :: bs, borrow, notzero =>
    let t : Int := borrow + (a : Int) - (b : Int)
    cmpLoop as bs (Int.fdiv t (2 ^ 32)) (notzero || decide (t % 2 ^ 32 ≠ 0))
  | _, _, borrow, notzero => (borrow, notzero)

/-- `fips_p256_cmp` from `p256.c`: `(int)borrow | notzero`, i.e. -1, 0 or 1
for `a < b`, `a == b`, `a > b`. -/
def fips_p256_cmp (a b : List Nat) : Int :=
  let res := cmpLoop a b 0 false
  Int.lor res.1 (if res.2 then 1 else 0)

/-- The digit loop of `fips_p256_add_d`: unsigned 64-bit carry propagation,
returning the result digits and the final carry. -/
def addLoop : List Nat → Nat → List Nat × Nat
  | [], carry => ([], carry)
  | a :: as, carry =>
    let t := carry + a
    let res := addLoop as (t / 2 ^ 32)
    (t % 2 ^ 32 :: res.1, res.2)

/-- `fips_p256_add_d` from `p256.c`: `b = a + d`, returning `(b, carry)`. -/
def fips_p256_add_d (a : List Nat) (d : Nat) : List Nat × Nat :=
  addLoop a d

/-- `memcpy` of a 32-byte DRBG output into a `p256_int` (`uint32_t[8]`,
little-endian words of little-endian bytes on this target). -/
def bytesToP256 : List Nat → List Nat
  | b0 :: b1 :: b2 :: b3 :: rest =>
    (b0 + 256 * b1 + 65536 * b2 + 16777216 * b3) :: bytesToP256 rest
  | _ => []

/-- The `do { ... } while (result == 0 && cmp(tmp, nMin2) > 0)` loop of
`fips_p256_pick`, with `fuel` bounding the iteration count (the C loop
terminates because the DRBG reseed counter is finite).  `tmp0` is the value
of the uninitialized stack variable `tmp` in case the very first
`DRBG_generate` call fails (its return code is OR-ed into `result` and the
loop exits).  Returns `(result, tmp, drbg)` on exit, `none` if fuel ran out. -/
def pickLoop (h : Drbg.Hmac) (data : List Nat) :
    Nat → Drbg.DRBG → List Nat → Option (Nat × List Nat × Drbg.DRBG)
  | 0, _, _ => none
  | fuel + 1, drbg, tmp0 =>
    match Drbg.DRBG_generate h drbg 32 data with
    | (0, drbg2, some o) =>
      let tmp := bytesToP256 o
      if fips_p256_cmp tmp FIPS_SECP256r1_nMin2 > 0 then pickLoop h data fuel drbg2 tmp
      else some (0, tmp, drbg2)
    | (code, drbg2, _) => some (code, tmp0, drbg2)

/-- `fips_p256_pick` from `p256.c`: draw 32 DRBG bytes into `tmp`, reject
while `tmp > n - 2`, then `output = tmp + 1`.  Returns
`(result, output digits)`; the C also zeroizes `tmp`, which has no
observable effect here. -/
def fips_p256_pick (h : Drbg.Hmac) (fuel : Nat) (drbg : Drbg.DRBG)
    (data tmp0 : List Nat) : Option (Nat × List Nat) :=
  match pickLoop h data fuel drbg tmp0 with
  | none => none
  | some (result, tmp, _) => some (result, (fips_p256_add_d tmp 1).1)

end P256

namespace U2f

/-- `U2F_SW_WTF` from `u2f_corp.h` (vendor internal-error status base). -/
def U2F_SW_WTF : Nat := 0x6f00

/-- `U2F_SW_WRONG_LENGTH` from `u2f_corp.h`. -/
def U2F_SW_WRONG_LENGTH : Nat := 0x6700

/-- `U2F_SW_CLA_NOT_SUPPORTED` from `u2f_corp.h`. -/
def U2F_SW_CLA_NOT_SUPPORTED : Nat := 0x6E00

/-- `FIPS_INITIALIZED` from `fips_err.h` (`1 << 31`, as a latch value). -/
def FIPS_INITIALIZED : Nat := 2 ^ 31

/-- Modelled from the spec: the U2F instruction codes come from the
standard FIDO header `u2f.h`, which is not among the reviewed sources; the
published FIDO raw-message-format values are REGISTER = 1,
AUTHENTICATE = 2, VERSION = 3. -/
def U2F_REGISTER : Nat := 1

/-- Modelled from the spec: the FIDO AUTHENTICATE instruction code. -/
def U2F_AUTHENTICATE : Nat := 2

/-- Modelled from the spec: the FIDO VERSION instruction code. -/
def U2F_VERSION : Nat := 3

/-- Modelled from the spec: the ISO 7816 "instruction not supported" and
"success" status words used by `u2f.c` (`U2F_SW_INS_NOT_SUPPORTED`,
`U2F_SW_NO_ERROR`), defined in the missing standard header. -/
def U2F_SW_INS_NOT_SUPPORTED : Nat := 0x6D00

/-- Modelled from the spec: the ISO 7816 success status word. -/
def U2F_SW_NO_ERROR : Nat := 0x9000

/-- The `APDU` struct from `u2f_corp.h`. -/
structure APDU where
  p1 : Nat
  p2 : Nat
  len : Nat
  data : List Nat
deriving Repr, DecidableEq

/-- `u2f_version` from `u2f.c`. -/
def u2f_version (apdu : APDU) : Nat × List Nat :=
  if apdu.len ≠ 0 then (U2F_SW_WRONG_LENGTH, [])
  else (U2F_SW_NO_ERROR, [0x55, 0x32, 0x46, 0x5f, 0x56, 0x32])

/-- `apdu_rcv` from `u2f.c`, with the REGISTER and AUTHENTICATE handlers
abstracted as functions from the parsed APDU to (status word, response
body); `fips_fatal` is the global FIPS latch.  Returns the bytes placed in
the output buffer: the response body followed by the 2-byte big-endian
status word.  When the latch is not `FIPS_INITIALIZED` after a REGISTER or
AUTHENTICATE dispatch, the dispatcher discards the body (`obuf_len = 0`)
and substitutes `U2F_SW_WTF + 6`. -/
def apdu_rcv (reg auth : APDU → Nat × List Nat) (fips_fatal : Nat)
    (ibuf : List Nat) (in_len : Nat) : List Nat :=
  let CLA := ibuf.getD 0 0
  let INS := ibuf.getD 1 0
  let len0 := if in_len ≥ 5 then ibuf.getD 4 0 else 0
  let apdu : APDU :=
    if len0 = 0 ∧ in_len ≥ 7 then
      { p1 := ibuf.getD 2 0, p2 := ibuf.getD 3 0,
        len := ibuf.getD 5 0 * 256 + ibuf.getD 6 0, data := ibuf.drop 7 }
    else
      { p1 := ibuf.getD 2 0, p2 := ibuf.getD 3 0, len := len0, data := ibuf.drop 5 }
  let res : Nat × List Nat :=
    if CLA = 0 then
      if INS = U2F_REGISTER then
        let r := reg apdu
        if fips_fatal ≠ FIPS_INITIALIZED then (U2F_SW_WTF + 6, []) else r
      else if INS = U2F_AUTHENTICATE then
        let r := auth apdu
        if fips_fatal ≠ FIPS_INITIALIZED then (U2F_SW_WTF + 6, []) else r
      else if INS = U2F_VERSION then u2f_version apdu
      else (U2F_SW_INS_NOT_SUPPORTED, [])
    else (U2F_SW_CLA_NOT_SUPPORTED, [])
  res.2 ++ [res.1 / 256 % 256, res.1 % 256]

/-- `equal_arrays` from `u2f.c`: constant-time n-byte comparison by OR-ing
byte XORs; true iff all compared bytes are equal. -/
def equal_arrays (a b : List Nat) (n : Nat) : Bool :=
  ((List.range n).foldl (fun accu i => accu ||| (a.getD i 0 ^^^ b.getD i 0)) 0) = 0

/-- `deinterleave64` from `u2f.c`: split 64 bytes into two 32-byte arrays;
only the first 24 bytes of each output carry data, the last 8 are zeroed. -/
def deinterleave64 (kh : List Nat) : List Nat × List Nat :=
  ((List.range 24).map (fun i => kh.getD (2 * i) 0) ++ List.replicate 8 0,
   (List.range 24).map (fun i => kh.getD (2 * i + 1) 0) ++ List.replicate 8 0)

/-- The hardware/crypto context threaded through the AUTHENTICATE
key-handle unwrap: the key-ladder derivation (`kl_derive_obfs` on the
personality salt), the DRBG-1 state built by `make_drbg1` with the
hardware HMAC engine `h`, the AES-CBC engine (zero IV folded in) and the
hardware SHA-256.  `junk` is the value the uninitialized `scramblek`
stack buffer would keep if `DRBG_generate` failed, since the C ignores
that return code. -/
structure CryptoEnv where
  klDeriveObfs : List Nat → Option (List Nat)
  drbg1 : Drbg.DRBG
  h : Drbg.Hmac
  aesCbc : Nat → List Nat → List Nat → List Nat
  sha256 : List Nat → List Nat
  salt : List Nat
  junk : List Nat

set_option linter.unusedVariables false in
/-- `gen_scramblek` from `u2f.c`.  Its `origin` parameter is declared
`__attribute((unused))` in the source and never read; the scramble key is
derived from the personality salt through the key ladder and DRBG-1;
the linter option mirrors that unused-parameter attribute. -/
def gen_scramblek (env : CryptoEnv) (origin : List Nat) (key_len : Nat) :
    Option (List Nat) :=
  if key_len ≠ 32 then none
  else
    match env.klDeriveObfs env.salt with
    | none => none
    | some buf =>
      match Drbg.DRBG_generate env.h env.drbg1 key_len buf with
      | (_, _, some out) => some out
      | (_, _, none) => some env.junk

/-- `obfuscate_kh` from `u2f.c`: derive the scramble key, AES-CBC the first
three 16-byte blocks, and XOR the fourth block with the SHA-256 of the
first three output blocks. -/
def obfuscate_kh (env : CryptoEnv) (origin input : List Nat) (mode : Nat) :
    Option (List Nat) :=
  match gen_scramblek env origin 32 with
  | none => none
  | some scramblek =>
    let out48 := env.aesCbc mode scramblek (input.take 48)
    let digest := env.sha256 out48
    let out4 := (List.range 16).map (fun i => input.getD (48 + i) 0 ^^^ digest.getD i 0)
    some (out48 ++ out4)

/-- The origin check of `u2f_authenticate` (`u2f.c`): unwrap the key handle
with `AES_DECRYPT_MODE`, de-interleave, and compare the recovered origin
with the request's application ID over 24 bytes.  `none` models the
`U2F_SW_WTF + 1` unwrap-failure exit; `some b` tells whether the
`U2F_SW_WRONG_DATA` rejection is avoided. -/
def u2f_authenticate_origin_ok (env : CryptoEnv) (appId keyHandle : List Nat) :
    Option Bool :=
  match obfuscate_kh env appId keyHandle 0 with
  | none => none
  | some kh => some (equal_arrays (deinterleave64 kh).1 appId 24)

end U2f

namespace Transport

/-- `CID_BROADCAST` from `u2f_hid.h`. -/
def CID_BROADCAST : Nat := 0xffffffff

/-- `TYPE_MASK` / `TYPE_INIT` from `u2f_hid.h`. -/
def TYPE_INIT : Nat := 0x80

/-- `TYPE_CONT` from `u2f_hid.h`. -/
def TYPE_CONT : Nat := 0x00

/-- `MAX_BCNT` from `u2f_hid_corp.h`: `57 + 39 * 59`. -/
def MAX_BCNT : Nat := 57 + 39 * 59

/-- `U2FHID_ERROR` from `u2f_hid.h` (`TYPE_INIT | 0x3F`). -/
def U2FHID_ERROR : Nat := 0xbf

/-- `U2FHID_INIT` from `u2f_hid.h` (`TYPE_INIT | 0x06`). -/
def U2FHID_INIT : Nat := 0x86

/-- `ERR_INVALID_LEN`, `ERR_INVALID_SEQ`, `ERR_CHANNEL_BUSY`,
`ERR_INVALID_CID` from `u2f_hid.h`. -/
def ERR_INVALID_LEN : Nat := 0x03

/-- `ERR_INVALID_SEQ` from `u2f_hid.h`. -/
def ERR_INVALID_SEQ : Nat := 0x04

/-- `ERR_CHANNEL_BUSY` from `u2f_hid.h`. -/
def ERR_CHANNEL_BUSY : Nat := 0x06

/-- `ERR_INVALID_CID` from `u2f_hid.h`. -/
def ERR_INVALID_CID : Nat := 0x0b

/-- `U2FHID_IF_VERSION` from `u2f_hid.h`. -/
def U2FHID_IF_VERSION : Nat := 2

/-- `CAPFLAG_WINK | CAPFLAG_LOCK` from `u2f_hid.h`. -/
def CAPFLAGS : Nat := 0x01 ||| 0x02

/-- A 64-byte `U2FHID_FRAME`: the channel id word and the 60-byte union
payload.  `payload[0]` is `init.cmd` alias `cont.seq` alias `type`;
for INIT frames `payload[1]`/`payload[2]` are `bcnth`/`bcntl` and
`payload[3..59]` the 57 data bytes; for CONT frames `payload[1..59]` are
the 59 data bytes. -/
structure Frame where
  cid : Nat
  payload : List Nat
deriving Repr, DecidableEq

/-- `FRAME_TYPE` from `u2f_hid.h`: `type & TYPE_MASK`. -/
def FRAME_TYPE (f : Frame) : Nat := f.payload.getD 0 0 &&& 0x80

/-- `FRAME_CMD` from `u2f_hid.h`: `init.cmd & ~TYPE_MASK`. -/
def FRAME_CMD (f : Frame) : Nat := f.payload.getD 0 0 &&& 0x7f

/-- `MSG_LEN` from `u2f_hid.h`: `bcnth * 256 + bcntl`. -/
def MSG_LEN (f : Frame) : Nat := f.payload.getD 1 0 * 256 + f.payload.getD 2 0

/-- `cont.seq` of a frame (the raw first payload byte). -/
def contSeq (f : Frame) : Nat := f.payload.getD 0 0

/-- `cont.data` of a frame (59 bytes). -/
def contData (f : Frame) : List Nat := (f.payload.drop 1).take 59

/-- `init.data` of a frame (57 bytes). -/
def initData (f : Frame) : List Nat := (f.payload.drop 3).take 57

/-- `PENDING_MSG` from `u2f_hid_corp.h`.  `dataSet` mirrors whether the
`data` pointer holds `rx_buffer` (set by the INIT path) or `NULL`
(after `clear_pending`). -/
structure Pending where
  cid : Nat
  dataSet : Bool
  cmd : Nat
  seqno : Nat
  bcnt : Nat
deriving Repr, DecidableEq

/-- The transport-layer globals of `u2f_transport.c`. -/
structure TState where
  next_CID : Nat
  lock_CID : Nat
  timeout_CID : Nat
  pending : Pending
  rx : List Nat
deriving Repr, DecidableEq

/-- `clear_pending` from `u2f_transport.c`. -/
def clear_pending : Pending :=
  { cid := 0, dataSet := false, cmd := 0, seqno := 0, bcnt := 0 }

/-- `u2fhid_err` from `u2f_transport.c`: build the one-byte error response
frame (`cmd = U2FHID_ERROR`, `bcnt = 1`, `data[0] = errno`). -/
def u2fhid_err (cid errno : Nat) : Frame :=
  { cid := cid, payload := [U2FHID_ERROR, 0, 1, errno] ++ List.replicate 56 0 }

/-- Overwrite `dst[off ..]` with `src` (the effect of
`memcpy(dst + off, src, src.length)` on a fixed-size buffer). -/
def writeAt (dst : List Nat) (off : Nat) (src : List Nat) : List Nat :=
  dst.take off ++ src ++ dst.drop (off + src.length)

/-- `consume_frame` from `u2f_transport.c`: append the 59 CONT data bytes
at `57 + seqno * 59`, bump `seqno`, and report whether the message is
complete (`nreceived >= bcnt`). -/
def consume_frame (st : TState) (f : Frame) : TState × Bool :=
  let nreceived := 57 + st.pending.seqno * 59
  let st2 := { st with rx := writeAt st.rx nreceived (contData f),
                       pending := { st.pending with seqno := st.pending.seqno + 1 } }
  (st2, nreceived + 59 ≥ st.pending.bcnt)

/-- `u2fhid_cmd_init` from `u2f_transport.c`: allocate or echo a channel id
and answer with the 17-byte INIT response.  Returns the new state (the
`next_CID` static may advance) and the response frame. -/
def u2fhid_cmd_init (st : TState) (f : Frame) : TState × Frame :=
  let alloc :=
    if f.cid = CID_BROADCAST then
      let proposed := st.next_CID
      let n1 := (st.next_CID + 1) % 2 ^ 32
      let n2 := if n1 = CID_BROADCAST then 1 else n1
      (proposed, n2, CID_BROADCAST)
    else (f.cid, st.next_CID, f.cid)
  let proposed := alloc.1
  let data :=
    ((initData f).take 8) ++
    [proposed % 256, proposed / 256 % 256, proposed / 65536 % 256,
     proposed / 16777216 % 256] ++
    [U2FHID_IF_VERSION, 0, 0, 0, CAPFLAGS] ++ List.replicate 40 0
  ({ st with next_CID := alloc.2.1 },
   { cid := alloc.2.2, payload := [U2FHID_INIT, 0, 17] ++ data })

/-- `u2fhid_process_frame` from `u2f_transport.c`, with
`u2fhid_response_msg` (command dispatch and response framing) abstracted
as `respMsg` from the post-reception state to the new state and the frames
it sends.  Returns the new global state and the frames sent. -/
def u2fhid_process_frame (respMsg : TState → TState × List Frame)
    (st : TState) (f : Frame) : TState × List Frame :=
  if f.cid = 0 then
    (st, [u2fhid_err f.cid ERR_INVALID_CID])
  else if f.cid = CID_BROADCAST ∧ FRAME_CMD f ≠ (0x7f &&& U2FHID_INIT) then
    (st, [u2fhid_err f.cid ERR_INVALID_CID])
  else if FRAME_TYPE f = TYPE_INIT ∧ FRAME_CMD f = (0x7f &&& U2FHID_INIT) then
    let st1 := if f.cid = st.pending.cid then
                 { st with timeout_CID := 0, pending := clear_pending }
               else st
    let res := u2fhid_cmd_init st1 f
    (res.1, [res.2])
  else
    if st.lock_CID > 0 ∧ f.cid ≠ st.lock_CID then
      (st, [u2fhid_err f.cid ERR_CHANNEL_BUSY])
    else if FRAME_TYPE f = TYPE_INIT then
      if f.cid ≠ st.pending.cid ∧ st.pending.cid ≠ 0 then
        (st, [u2fhid_err f.cid ERR_CHANNEL_BUSY])
      else if st.pending.cid ≠ 0 then
        ({ st with timeout_CID := 0, pending := clear_pending },
         [u2fhid_err f.cid ERR_INVALID_SEQ])
      else if MSG_LEN f > MAX_BCNT then
        (st, [u2fhid_err f.cid ERR_INVALID_LEN])
      else
        let bcnt := MSG_LEN f
        let st1 := { st with
          timeout_CID := f.cid,
          pending := { cid := f.cid, dataSet := true, cmd := FRAME_CMD f,
                       seqno := 0, bcnt := bcnt } }
        if bcnt ≤ 57 then
          respMsg { st1 with rx := writeAt st1.rx 0 ((initData f).take bcnt) }
        else
          ({ st1 with rx := writeAt st1.rx 0 (initData f) }, [])
    else if FRAME_TYPE f = TYPE_CONT then
      if st.pending.cid = 0 ∨ st.pending.cid ≠ f.cid then
        (st, [])
      else if st.pending.seqno ≠ contSeq f then
        ({ st with timeout_CID := 0, pending := clear_pending },
         [u2fhid_err f.cid ERR_INVALID_SEQ])
      else
        let st1 := { st with timeout_CID := st.pending.cid }
        let res := consume_frame st1 f
        if res.2 then respMsg res.1 else (res.1, [])
    else
      (st, [])

end Transport

namespace Fix

/-- A concrete HMAC instance (constant zero digest) used by witnesses. -/
def h0 : Drbg.Hmac := fun _ _ => List.replicate 32 0

/-- A freshly reseeded DRBG state used by witnesses. -/
def c0 : Drbg.DRBG :=
  { K := List.replicate 32 0, V := List.replicate 32 1, reseed_counter := 1 }

/-- A concrete crypto environment used by witnesses. -/
def env0 : U2f.CryptoEnv :=
  { klDeriveObfs := fun _ => some (List.replicate 32 7)
    drbg1 := c0
    h := h0
    aesCbc := fun _ _ d => d.map (fun x => x ^^^ 0x5a)
    sha256 := fun _ => List.replicate 32 3
    salt := List.replicate 32 2
    junk := List.replicate 32 9 }

/-- Application IDs for the C10 witness: equal on bytes 0..23, different on
bytes 24..31. -/
def appA : List Nat := List.range 32

/-- Second application ID for the C10 witness. -/
def appB : List Nat := List.range 24 ++ List.replicate 8 0xee

/-- A 64-byte key handle for the C10 witness. -/
def kh0 : List Nat := List.range 64

/-- The trivial response-message behaviour used where the dispatch path is
not reached. -/
def respMsg0 : Transport.TState → Transport.TState × List Transport.Frame :=
  fun s => (s, [])

/-- A pending multi-frame reassembly on channel 1, expecting seqno 2. -/
def pend1 : Transport.Pending :=
  { cid := 1, dataSet := true, cmd := 3, seqno := 2, bcnt := 200 }

/-- A transport state with the reassembly `pend1` in progress. -/
def st1 : Transport.TState :=
  { next_CID := 5
    lock_CID := 0
    timeout_CID := 1
    pending := pend1
    rx := List.replicate 64 0 }

/-- A channel-initialization (cmd `0x86`) INIT frame on channel 2. -/
def fInitOther : Transport.Frame :=
  { cid := 2, payload := [0x86, 0, 0] ++ List.replicate 57 0 }

/-- A CONT frame on channel 1 with sequence number 5. -/
def fContBad : Transport.Frame :=
  { cid := 1, payload := [5] ++ List.replicate 59 9 }

/-- A MSG (cmd `0x83`) INIT frame on channel 1 with a 100-byte message. -/
def fFreshInit : Transport.Frame :=
  { cid := 1, payload := [0x83, 0, 100] ++ List.replicate 57 7 }

/-- A concrete REGISTER handler used by witnesses. -/
def reg0 : U2f.APDU → Nat × List Nat := fun _ => (U2f.U2F_SW_NO_ERROR, [1, 2, 3])

/-- A concrete AUTHENTICATE handler used by witnesses. -/
def auth0 : U2f.APDU → Nat × List Nat := fun _ => (U2f.U2F_SW_NO_ERROR, [4, 5])

end Fix

section Theorems

/-- C8: for every `size < 65536`, `asn1_len` emits the DER length encoding —
`[size]` when `size < 128`, `[0x81, size]` when `128 ≤ size < 256`,
`[0x82, hi, lo]` (big-endian 16-bit) otherwise — returns the matching byte
count 1, 2 or 3, and decoding the emitted bytes reproduces `size`. -/
theorem asn1_len_der (size : Nat) (hs : size < 65536) :
    Asn1.asn1_len size =
      (if size < 128 then [size]
       else if size < 256 then [0x81, size]
       else [0x82, size / 256, size % 256],
       if size < 128 then 1 else if size < 256 then 2 else 3)
    ∧ Asn1.derLenDecode (Asn1.asn1_len size).1 = some size := by
  have hsh : size >>> 8 = size / 256 := Nat.shiftRight_eq_div_pow size 8
  have hdiv : size / 256 % 256 = size / 256 := by omega
  by_cases h1 : size < 128
  · simp [Asn1.asn1_len, Asn1.derLenDecode, h1]
  · by_cases h2 : size < 256
    · simp [Asn1.asn1_len, Asn1.derLenDecode, h1, h2]
    · constructor
      · simp [Asn1.asn1_len, h1, h2, hsh, hdiv]
      · simp [Asn1.asn1_len, Asn1.derLenDecode, h1, h2, hsh, hdiv]
        omega

/-- Witness for C8 at `size = 65535`. -/
theorem asn1_len_der_witness :
    Asn1.asn1_len 65535 = ([0x82, 255, 255], 3)
    ∧ Asn1.derLenDecode (Asn1.asn1_len 65535).1 = some 65535 := by
  have h := asn1_len_der 65535 (by decide)
  simpa using h

/-- C7: the DCRYPTO fault tables in `dcrypto_syscalls.c` and `dcrypto.c` map
fault 2 to call-stack overflow, 5 to data access, 7 to break, 8 to trap,
10 to the generic fault, 11 to the loop-modulus range and 12 to unknown —
but they map fault 3 to "loop stack underflow" and fault 4 to "loop stack
overflow", the opposite of the fault-ID definitions
(`TOCK_DCRYPTO_FAULT_LOOP_OVERFLOW = 3`, `TOCK_DCRYPTO_FAULT_LOOP_UNDERFLOW
= 4`) recorded beside them, which the claim follows. -/
theorem dcrypto_fault_table_eval :
    Dcrypto.tock_dcrypto_fault_to_str Dcrypto.TOCK_DCRYPTO_ERRORS_syscalls 3
      = "loop stack underflow"
    ∧ Dcrypto.tock_dcrypto_fault_to_str Dcrypto.TOCK_DCRYPTO_ERRORS_syscalls 4
      = "loop stack overflow"
    ∧ Dcrypto.tock_dcrypto_fault_to_str Dcrypto.TOCK_DCRYPTO_ERRORS_u2f 3
      = "loop stack underflow"
    ∧ Dcrypto.tock_dcrypto_fault_to_str Dcrypto.TOCK_DCRYPTO_ERRORS_u2f 4
      = "loop stack overflow"
    ∧ Dcrypto.tock_dcrypto_fault_to_str Dcrypto.TOCK_DCRYPTO_ERRORS_syscalls 2
      = "call stack overflow"
    ∧ Dcrypto.tock_dcrypto_fault_to_str Dcrypto.TOCK_DCRYPTO_ERRORS_syscalls 5
      = "data access"
    ∧ Dcrypto.tock_dcrypto_fault_to_str Dcrypto.TOCK_DCRYPTO_ERRORS_syscalls 7
      = "break"
    ∧ Dcrypto.tock_dcrypto_fault_to_str Dcrypto.TOCK_DCRYPTO_ERRORS_syscalls 8
      = "trap"
    ∧ Dcrypto.tock_dcrypto_fault_to_str Dcrypto.TOCK_DCRYPTO_ERRORS_syscalls 10
      = "fault"
    ∧ Dcrypto.tock_dcrypto_fault_to_str Dcrypto.TOCK_DCRYPTO_ERRORS_syscalls 12
      = "unknown"
    ∧ Dcrypto.tock_dcrypto_fault_to_str Dcrypto.TOCK_DCRYPTO_ERRORS_u2f 11
      = "loop mod operand range" :=
  ⟨rfl, rfl, rfl, rfl, rfl, rfl, rfl, rfl, rfl, rfl, rfl⟩

/-- C6: evaluation of `fips_aes_init` at its initial static state.  Because
the validity check reads the static `cipher_mode` instead of the `c_mode`
argument, a first call with the unsupported GCM mode succeeds and installs
the key (the claim requires failure with no key installation), after which
a second call with the supported ECB mode fails; a 129-bit key length also
succeeds (truncating division maps it to 16 bytes), though the claim
requires failure for every length other than 128 and 256 bits.  Supported
calls from the initial state do succeed. -/
theorem fips_aes_init_eval :
    Shims.fips_aes_init Shims.initShimState (List.replicate 16 0xab) 128 none
        Shims.AES_CIPHER_MODE_GCM Shims.AES_ENCRYPT_MODE =
      ({ encrypt_mode := 1, cipher_mode := 3, initialization_vector := none,
         installed_key := some (List.replicate 16 0xab) }, 1)
    ∧ (Shims.fips_aes_init
        (Shims.fips_aes_init Shims.initShimState (List.replicate 16 0xab) 128 none
          Shims.AES_CIPHER_MODE_GCM Shims.AES_ENCRYPT_MODE).1
        (List.replicate 16 0xab) 128 none
        Shims.AES_CIPHER_MODE_ECB Shims.AES_ENCRYPT_MODE).2 = 0
    ∧ (Shims.fips_aes_init Shims.initShimState (List.replicate 17 0xab) 129 none
        Shims.AES_CIPHER_MODE_ECB Shims.AES_ENCRYPT_MODE).2 = 1
    ∧ (Shims.fips_aes_init Shims.initShimState (List.replicate 16 0xab) 128 none
        Shims.AES_CIPHER_MODE_ECB Shims.AES_ENCRYPT_MODE).2 = 1
    ∧ (Shims.fips_aes_init Shims.initShimState (List.replicate 32 0xab) 256 none
        Shims.AES_CIPHER_MODE_CBC Shims.AES_ENCRYPT_MODE).2 = 1
    ∧ (Shims.fips_aes_init Shims.initShimState (List.replicate 16 0xab) 120 none
        Shims.AES_CIPHER_MODE_ECB Shims.AES_ENCRYPT_MODE).2 = 0 := by
  refine ⟨?_, ?_, ?_, ?_, ?_, ?_⟩ <;> rfl

/-- C3: whenever the FIPS latch differs from `FIPS_INITIALIZED`, dispatching
a REGISTER or AUTHENTICATE APDU produces exactly the two status bytes
`0x6F 0x06` (`U2F_SW_WTF + 6`) with an empty response body, for every
possible behaviour of the two handlers. -/
theorem apdu_rcv_fips_gate (reg auth : U2f.APDU → Nat × List Nat)
    (fips : Nat) (ibuf : List Nat) (in_len : Nat)
    (hfips : fips ≠ U2f.FIPS_INITIALIZED)
    (hcla : ibuf.getD 0 0 = 0)
    (hins : ibuf.getD 1 0 = U2f.U2F_REGISTER ∨ ibuf.getD 1 0 = U2f.U2F_AUTHENTICATE) :
    U2f.apdu_rcv reg auth fips ibuf in_len = [0x6f, 0x06] := by
  rcases hins with h | h <;>
  · simp [U2f.U2F_REGISTER, U2f.U2F_AUTHENTICATE] at h hcla
    simp [U2f.apdu_rcv, h, hcla, hfips, U2f.U2F_SW_WTF,
      U2f.U2F_REGISTER, U2f.U2F_AUTHENTICATE, U2f.U2F_VERSION]

/-- Witness for C3: a concrete AUTHENTICATE APDU under a tripped latch. -/
theorem apdu_rcv_fips_gate_witness :
    U2f.apdu_rcv Fix.reg0 Fix.auth0 1 [0, 2, 0, 0, 0] 5 = [0x6f, 0x06] :=
  apdu_rcv_fips_gate Fix.reg0 Fix.auth0 1 [0, 2, 0, 0, 0] 5
    (by decide) (by decide) (Or.inr (by decide))

set_option maxRecDepth 40000 in
/-- C1: `fips_cmac_generate` on the empty message returns the unprocessed
all-zero accumulator for every block cipher — the final-block padding is
never applied because the data loop does not run — while RFC 4493 (the
file's own reference) and the spec require the published tag
`bb1d6929e95937287fa37d129b756746` there (the value of the spec-modelled
final-block treatment); the three nonempty RFC 4493 vectors do produce the
published tags. -/
theorem fips_cmac_generate_empty_bug :
    (∀ E : List Nat → List Nat,
        Cmac.fips_cmac_generate E [] = List.replicate 16 0)
    ∧ Cmac.cmac_spec_empty (Cmac.aes128 Cmac.rfcKey) = Cmac.rfcTagEmpty
    ∧ Cmac.rfcTagEmpty ≠ List.replicate 16 0
    ∧ Cmac.fips_cmac_generate (Cmac.aes128 Cmac.rfcKey) (Cmac.rfcMsg64.take 16)
        = Cmac.rfcTag16
    ∧ Cmac.fips_cmac_generate (Cmac.aes128 Cmac.rfcKey) (Cmac.rfcMsg64.take 40)
        = Cmac.rfcTag40
    ∧ Cmac.fips_cmac_generate (Cmac.aes128 Cmac.rfcKey) Cmac.rfcMsg64
        = Cmac.rfcTag64 := by
  refine ⟨fun E => rfl, ?_, by decide, ?_, ?_, ?_⟩ <;> decide

end Theorems

section Theorems2

/-- Bytes below index 24 agree when the 24-byte prefixes agree. -/
theorem getD_eq_of_take_eq {a b : List Nat} (h : a.take 24 = b.take 24)
    {i : Nat} (hi : i < 24) : a.getD i 0 = b.getD i 0 := by
  have ha : (a.take 24)[i]? = a[i]? := List.getElem?_take_of_lt hi
  have hb : (b.take 24)[i]? = b[i]? := List.getElem?_take_of_lt hi
  simp only [List.getD_eq_getElem?_getD, ← ha, ← hb, h]

/-- C10: the AUTHENTICATE wrong-data origin check depends only on the first
24 bytes of the request's application ID: two requests with the same key
handle whose application IDs agree on bytes 0..23 get the same origin-check
outcome, whatever the crypto environment (`gen_scramblek` never reads its
origin argument, de-interleaving recovers only 24 origin bytes, and the
constant-time comparison covers exactly those 24 bytes). -/
theorem authenticate_origin_ignores_appid_tail (env : U2f.CryptoEnv)
    (appId appId2 keyHandle : List Nat)
    (h24 : appId.take 24 = appId2.take 24) :
    U2f.u2f_authenticate_origin_ok env appId keyHandle =
    U2f.u2f_authenticate_origin_ok env appId2 keyHandle := by
  have hobf : U2f.obfuscate_kh env appId keyHandle 0 =
      U2f.obfuscate_kh env appId2 keyHandle 0 := rfl
  unfold U2f.u2f_authenticate_origin_ok
  rw [hobf]
  cases hkh : U2f.obfuscate_kh env appId2 keyHandle 0 with
  | none => rfl
  | some kh =>
    dsimp only
    have hfold :
        List.foldl
          (fun accu i => accu ||| ((U2f.deinterleave64 kh).1.getD i 0 ^^^ appId.getD i 0))
          0 (List.range 24) =
        List.foldl
          (fun accu i => accu ||| ((U2f.deinterleave64 kh).1.getD i 0 ^^^ appId2.getD i 0))
          0 (List.range 24) := by
      apply List.foldl_ext
      intro acc i hi
      rw [getD_eq_of_take_eq h24 (List.mem_range.mp hi)]
    unfold U2f.equal_arrays
    rw [hfold]

/-- Witness for C10: two application IDs differing only in bytes 24..31. -/
theorem authenticate_origin_ignores_appid_tail_witness :
    U2f.u2f_authenticate_origin_ok Fix.env0 Fix.appA Fix.kh0 =
    U2f.u2f_authenticate_origin_ok Fix.env0 Fix.appB Fix.kh0 :=
  authenticate_origin_ignores_appid_tail Fix.env0 Fix.appA Fix.appB Fix.kh0
    (by decide)

end Theorems2

section Theorems3

/-- C4 counterexample: with reassembly pending on channel 1, a
channel-initialization INIT frame arriving on channel 2 leaves the pending
slot occupied (`pending.cid` stays 1), contradicting the claim that
processing such a frame always clears the slot regardless of channel
match. -/
theorem init_cmd_other_channel_keeps_pending :
    Fix.st1.pending.cid ≠ 0
    ∧ Transport.FRAME_TYPE Fix.fInitOther = Transport.TYPE_INIT
    ∧ Transport.FRAME_CMD Fix.fInitOther = (0x7f &&& Transport.U2FHID_INIT)
    ∧ (Transport.u2fhid_process_frame Fix.respMsg0 Fix.st1 Fix.fInitOther).1.pending.cid
        ≠ 0 := by
  decide

/-- C4 (amended): a channel-initialization INIT frame on a nonzero channel
clears the pending reassembly exactly when its channel ID equals the
pending channel (leaving it unchanged otherwise), and the only frame sent
is the INIT response — never an error frame. -/
theorem init_cmd_frame_abort
    (respMsg : Transport.TState → Transport.TState × List Transport.Frame)
    (st : Transport.TState) (f : Transport.Frame)
    (hcid : f.cid ≠ 0)
    (htype : Transport.FRAME_TYPE f = Transport.TYPE_INIT)
    (hcmd : Transport.FRAME_CMD f = (0x7f &&& Transport.U2FHID_INIT)) :
    (Transport.u2fhid_process_frame respMsg st f).1.pending =
      (if f.cid = st.pending.cid then Transport.clear_pending else st.pending)
    ∧ (Transport.u2fhid_process_frame respMsg st f).2.map
        (fun fr => fr.payload.getD 0 0) = [Transport.U2FHID_INIT] := by
  refine ⟨?_, ?_⟩ <;>
  · simp [Transport.u2fhid_process_frame, Transport.u2fhid_cmd_init,
      Transport.U2FHID_INIT, hcid, htype, hcmd]
    try (split <;> rfl)

/-- Witness for C4 (amended) on a non-matching channel. -/
theorem init_cmd_frame_abort_witness :
    (Transport.u2fhid_process_frame Fix.respMsg0 Fix.st1 Fix.fInitOther).1.pending =
      (if Fix.fInitOther.cid = Fix.st1.pending.cid then Transport.clear_pending
       else Fix.st1.pending)
    ∧ (Transport.u2fhid_process_frame Fix.respMsg0 Fix.st1 Fix.fInitOther).2.map
        (fun fr => fr.payload.getD 0 0) = [Transport.U2FHID_INIT] :=
  init_cmd_frame_abort Fix.respMsg0 Fix.st1 Fix.fInitOther
    (by decide) (by decide) (by decide)

/-- C5: during a started multi-frame transaction, a CONT frame on the
pending channel with an unexpected sequence number makes the device send
an invalid-sequence (0x04) error frame on that channel and clear the
pending slot, after which a fresh (non-channel-initialization) INIT frame
on the same channel is accepted and opens a new transaction with the
frame's command, byte count, sequence number 0, and its 57 data bytes
buffered. -/
theorem cont_bad_seq_then_fresh_init
    (respMsg : Transport.TState → Transport.TState × List Transport.Frame)
    (st : Transport.TState) (f1 f2 : Transport.Frame)
    (hpc : st.pending.cid ≠ 0)
    (hbr : st.pending.cid ≠ Transport.CID_BROADCAST)
    (hlock : st.lock_CID = 0 ∨ st.lock_CID = st.pending.cid)
    (h1cid : f1.cid = st.pending.cid)
    (h1type : Transport.FRAME_TYPE f1 = Transport.TYPE_CONT)
    (h1seq : Transport.contSeq f1 ≠ st.pending.seqno)
    (h2cid : f2.cid = st.pending.cid)
    (h2type : Transport.FRAME_TYPE f2 = Transport.TYPE_INIT)
    (h2cmd : Transport.FRAME_CMD f2 ≠ (0x7f &&& Transport.U2FHID_INIT))
    (h2lo : 57 < Transport.MSG_LEN f2)
    (h2hi : Transport.MSG_LEN f2 ≤ Transport.MAX_BCNT) :
    Transport.u2fhid_process_frame respMsg st f1 =
      ({ st with timeout_CID := 0, pending := Transport.clear_pending },
       [Transport.u2fhid_err f1.cid Transport.ERR_INVALID_SEQ])
    ∧ Transport.u2fhid_process_frame respMsg
        { st with timeout_CID := 0, pending := Transport.clear_pending } f2 =
      ({ st with timeout_CID := f2.cid,
                 pending := { cid := f2.cid, dataSet := true,
                              cmd := Transport.FRAME_CMD f2, seqno := 0,
                              bcnt := Transport.MSG_LEN f2 },
                 rx := Transport.writeAt st.rx 0 (Transport.initData f2) },
       []) := by
  have hbr4 : st.pending.cid ≠ 4294967295 := hbr
  have h2cmd6 : Transport.FRAME_CMD f2 ≠ 6 := h2cmd
  have hand : (127 &&& 134 : Nat) = 6 := rfl
  constructor
  · rcases hlock with hl | hl <;>
      simp [Transport.u2fhid_process_frame, Transport.TYPE_INIT,
        Transport.TYPE_CONT, Transport.CID_BROADCAST, Transport.U2FHID_INIT,
        h1cid, hpc, hbr4, h1type, Ne.symm h1seq, hl]
  · rcases hlock with hl | hl <;>
      simp [Transport.u2fhid_process_frame, Transport.TYPE_INIT,
        Transport.TYPE_CONT, Transport.CID_BROADCAST, Transport.U2FHID_INIT,
        Transport.clear_pending, h2cid, hpc, hbr4, h2type, h2cmd6, hand, hl,
        Nat.not_lt.mpr h2hi, Nat.not_le.mpr h2lo]

/-- Witness for C5: the bad-sequence CONT frame `fContBad` then the fresh
INIT frame `fFreshInit` on channel 1. -/
theorem cont_bad_seq_then_fresh_init_witness :
    Transport.u2fhid_process_frame Fix.respMsg0 Fix.st1 Fix.fContBad =
      ({ Fix.st1 with timeout_CID := 0, pending := Transport.clear_pending },
       [Transport.u2fhid_err Fix.fContBad.cid Transport.ERR_INVALID_SEQ])
    ∧ Transport.u2fhid_process_frame Fix.respMsg0
        { Fix.st1 with timeout_CID := 0, pending := Transport.clear_pending }
        Fix.fFreshInit =
      ({ Fix.st1 with timeout_CID := Fix.fFreshInit.cid,
                      pending := { cid := Fix.fFreshInit.cid, dataSet := true,
                                   cmd := Transport.FRAME_CMD Fix.fFreshInit,
                                   seqno := 0,
                                   bcnt := Transport.MSG_LEN Fix.fFreshInit },
                      rx := Transport.writeAt Fix.st1.rx 0
                              (Transport.initData Fix.fFreshInit) },
       []) :=
  cont_bad_seq_then_fresh_init Fix.respMsg0 Fix.st1 Fix.fContBad Fix.fFreshInit
    (by decide) (by decide) (Or.inl (by decide)) (by decide) (by decide)
    (by decide) (by decide) (by decide) (by decide) (by decide) (by decide)

end Theorems3

section Theorems4

/-- `_updateKV` and `_updateV` leave the reseed counter unchanged. -/
theorem updateKV_counter (h : Drbg.Hmac) (tag : Nat) (p0 p1 p2 : List Nat)
    (ctx : Drbg.DRBG) :
    (Drbg.updateKV h tag p0 p1 p2 ctx).reseed_counter = ctx.reseed_counter := rfl

/-- `DRBG_update` leaves the reseed counter unchanged. -/
theorem DRBG_update_counter (h : Drbg.Hmac) (p0 p1 p2 : List Nat)
    (ctx : Drbg.DRBG) :
    (Drbg.DRBG_update h p0 p1 p2 ctx).reseed_counter = ctx.reseed_counter := by
  unfold Drbg.DRBG_update
  split <;> rfl

/-- The generate output loop leaves the reseed counter unchanged. -/
theorem genLoopAux_counter (h : Drbg.Hmac) :
    ∀ (fuel : Nat) (ctx : Drbg.DRBG) (rem : Nat),
    (Drbg.genLoopAux h fuel ctx rem).1.reseed_counter = ctx.reseed_counter := by
  intro fuel
  induction fuel with
  | zero => intro ctx rem; rfl
  | succ fuel ih =>
    intro ctx rem
    rw [Drbg.genLoopAux]
    split
    · rfl
    · simp only []
      rw [ih]
      rfl

/-- Unfolding lemma for `nthCode` (kept symbolic so that concrete instances
need no kernel evaluation). -/
theorem nthCode_eq (h : Drbg.Hmac) (len : Nat) (input : List Nat)
    (ctx : Drbg.DRBG) (k : Nat) :
    Drbg.nthCode h len input ctx k =
      (Drbg.DRBG_generate h (Drbg.genIter h len input k ctx) len input).1 := rfl

/-- A `DRBG_generate` call with an in-range length and a reseed counter
below 10,000 succeeds (code 0) and increments the counter by exactly 1. -/
theorem DRBG_generate_success (h : Drbg.Hmac) (ctx : Drbg.DRBG) (len : Nat)
    (input : List Nat) (hlen : len ≤ 937) (hc : ctx.reseed_counter < 10000) :
    (Drbg.DRBG_generate h ctx len input).1 = 0
    ∧ (Drbg.DRBG_generate h ctx len input).2.1.reseed_counter =
        ctx.reseed_counter + 1 := by
  unfold Drbg.DRBG_generate
  rw [if_neg (by omega), if_neg (by omega)]
  refine ⟨rfl, ?_⟩
  simp only [Drbg.genLoop]
  rw [DRBG_update_counter, genLoopAux_counter]
  split <;> first | rfl | rw [DRBG_update_counter]

/-- A `DRBG_generate` call with an in-range length and a reseed counter at
or above 10,000 fails with code 2 and no output or state change. -/
theorem DRBG_generate_exhausted (h : Drbg.Hmac) (ctx : Drbg.DRBG) (len : Nat)
    (input : List Nat) (hlen : len ≤ 937) (hc : ctx.reseed_counter ≥ 10000) :
    Drbg.DRBG_generate h ctx len input = (2, ctx, none) := by
  unfold Drbg.DRBG_generate
  rw [if_neg (by omega), if_pos (by omega)]

/-- After `k` successful generate calls from a counter that has room, the
counter has grown by exactly `k`. -/
theorem genIter_counter (h : Drbg.Hmac) (len : Nat) (input : List Nat)
    (hlen : len ≤ 937) :
    ∀ (k : Nat) (ctx : Drbg.DRBG), ctx.reseed_counter + k ≤ 10000 →
    (Drbg.genIter h len input k ctx).reseed_counter = ctx.reseed_counter + k := by
  intro k
  induction k with
  | zero => intro ctx _; rfl
  | succ k ih =>
    intro ctx hk
    have hsucc := DRBG_generate_success h ctx len input hlen (by omega)
    rw [Drbg.genIter, ih _ (by rw [hsucc.2]; omega), hsucc.2]
    omega

/-- C2 (amended): `DRBG_generate` rejects, without touching state or
producing output, any request of 938 bytes or more; and starting from a
freshly seeded or reseeded state (`reseed_counter = 1`), the first 9,999
generate calls succeed and the 10,000th fails with code 2 — the counter
must be below 10,000 for generation and reaches it after 9,999
successes. -/
theorem DRBG_generate_bounds (h : Drbg.Hmac) (ctx : Drbg.DRBG) (len : Nat)
    (input : List Nat) (hlen : len ≤ 937) (hc : ctx.reseed_counter = 1) :
    (∀ (len2 : Nat) (input2 : List Nat), 938 ≤ len2 →
      Drbg.DRBG_generate h ctx len2 input2 = (1, ctx, none))
    ∧ (∀ k, k < 9999 → Drbg.nthCode h len input ctx k = 0)
    ∧ Drbg.nthCode h len input ctx 9999 = 2 := by
  refine ⟨?_, ?_, ?_⟩
  · intro len2 input2 h2
    unfold Drbg.DRBG_generate
    rw [if_pos (by omega)]
  · intro k hk
    rw [nthCode_eq]
    have hcount := genIter_counter h len input hlen k ctx (by omega)
    exact (DRBG_generate_success h _ len input hlen (by omega)).1
  · rw [nthCode_eq]
    have hcount := genIter_counter h len input hlen 9999 ctx (by omega)
    rw [DRBG_generate_exhausted h _ len input hlen (by omega)]

/-- Witness for C2 (amended) at the constant-zero HMAC and a freshly
reseeded state. -/
theorem DRBG_generate_bounds_witness :
    (∀ (len2 : Nat) (input2 : List Nat), 938 ≤ len2 →
      Drbg.DRBG_generate Fix.h0 Fix.c0 len2 input2 = (1, Fix.c0, none))
    ∧ (∀ k, k < 9999 → Drbg.nthCode Fix.h0 32 [] Fix.c0 k = 0)
    ∧ Drbg.nthCode Fix.h0 32 [] Fix.c0 9999 = 2 :=
  DRBG_generate_bounds Fix.h0 Fix.c0 32 [] (by decide) (by decide)

/-- C2 counterexample: from a freshly reseeded state the 9,999th generate
call (index 9998) still succeeds but the 10,000th (index 9999) already
fails with code 2, so the generator does not allow the 10,000 successful
calls the claim asserts. -/
theorem DRBG_tenth_thousandth_call_fails :
    Drbg.nthCode Fix.h0 32 [] Fix.c0 9998 = 0
    ∧ Drbg.nthCode Fix.h0 32 [] Fix.c0 9999 = 2 := by
  have hc1 : Fix.c0.reseed_counter = 1 := rfl
  constructor
  · rw [nthCode_eq]
    have hcount := genIter_counter Fix.h0 32 [] (by decide) 9998 Fix.c0 (by omega)
    exact (DRBG_generate_success Fix.h0 _ 32 [] (by decide) (by omega)).1
  · rw [nthCode_eq]
    have hcount := genIter_counter Fix.h0 32 [] (by decide) 9999 Fix.c0 (by omega)
    rw [DRBG_generate_exhausted Fix.h0 _ 32 [] (by decide) (by omega)]

end Theorems4

section Theorems5

/-- The value of a digit list with all digits below `2^32` is below
`2^(32·len)`. -/
theorem lval_lt (as : List Nat) (ha : ∀ x ∈ as, x < 2 ^ 32) :
    P256.lval as < 2 ^ (32 * as.length) := by
  induction as with
  | nil => simp [P256.lval]
  | cons a as ih =>
    have ha0 : a < 2 ^ 32 := ha a (List.mem_cons_self a as)
    have ih2 := ih (fun x hx => ha x (List.mem_cons_of_mem a hx))
    simp only [P256.lval, List.length_cons]
    have hpow : 2 ^ (32 * (as.length + 1)) = 2 ^ 32 * 2 ^ (32 * as.length) := by
      rw [← pow_add]; ring_nf
    rw [hpow]
    nlinarith [ih2, ha0]

/-- Division/remainder of `r + 2^32·S` by `2^32·P` peels one 32-bit digit. -/
theorem int_digit_decomp (r S1 P : Int) (hr0 : 0 ≤ r) (hr1 : r < 2 ^ 32)
    (hP : 0 < P) :
    (r + 2 ^ 32 * S1) / (2 ^ 32 * P) = S1 / P
    ∧ (r + 2 ^ 32 * S1) % (2 ^ 32 * P) = r + 2 ^ 32 * (S1 % P) := by
  have hb : (0 : Int) < 2 ^ 32 * P := by positivity
  have hmod0 : 0 ≤ S1 % P := Int.emod_nonneg S1 (ne_of_gt hP)
  have hmodP : S1 % P < P := Int.emod_lt_of_pos S1 hP
  have ha : r + 2 ^ 32 * (S1 % P) + (2 ^ 32 * P) * (S1 / P) = r + 2 ^ 32 * S1 := by
    linear_combination (2 ^ 32 : Int) * Int.emod_add_ediv S1 P
  have key := (@Int.ediv_emod_unique (r + 2 ^ 32 * S1) (2 ^ 32 * P)
      (r + 2 ^ 32 * (S1 % P)) (S1 / P) hb).mpr ⟨ha, by omega, by nlinarith⟩
  exact ⟨key.1, key.2⟩

/-- Characterization of the `fips_p256_cmp` digit loop: it computes the
floor quotient and remainder-is-nonzero flag of the full multi-digit
difference. -/
theorem cmpLoop_eq (as : List Nat) :
    ∀ (bs : List Nat) (borrow : Int) (nz : Bool), as.length = bs.length →
    P256.cmpLoop as bs borrow nz =
      ((borrow + (P256.lval as : Int) - (P256.lval bs : Int)) / (2 ^ (32 * as.length) : Int),
       nz || decide ((borrow + (P256.lval as : Int) - (P256.lval bs : Int))
           % (2 ^ (32 * as.length) : Int) ≠ 0)) := by
  induction as with
  | nil =>
    intro bs borrow nz hlen
    cases bs with
    | nil => simp [P256.cmpLoop, P256.lval]
    | cons b bs => simp at hlen
  | cons a as ih =>
    intro bs borrow nz hlen
    cases bs with
    | nil => simp at hlen
    | cons b bs =>
      have hlen2 : as.length = bs.length := by simpa using hlen
      rw [P256.cmpLoop, ih bs _ _ hlen2]
      have hfd : Int.fdiv (borrow + (a : Int) - b) (2 ^ 32)
          = (borrow + (a : Int) - b) / (2 ^ 32) := Int.fdiv_eq_ediv _ (by positivity)
      set t : Int := borrow + (a : Int) - b with ht
      have hr0 : 0 ≤ t % 2 ^ 32 := Int.emod_nonneg t (by positivity)
      have hr1 : t % 2 ^ 32 < 2 ^ 32 := Int.emod_lt_of_pos t (by positivity)
      have hP : (0 : Int) < 2 ^ (32 * as.length) := by positivity
      have hemod : t % 2 ^ 32 + 2 ^ 32 * (t / 2 ^ 32) = t := Int.emod_add_ediv t (2 ^ 32)
      have hS : borrow + (P256.lval (a :: as) : Int) - (P256.lval (b :: bs) : Int)
          = t % 2 ^ 32 + 2 ^ 32 * (t / 2 ^ 32 + (P256.lval as : Int) - P256.lval bs) := by
        simp only [P256.lval]
        push_cast
        omega
      have hM : (2 : Int) ^ (32 * (a :: as).length) = 2 ^ 32 * 2 ^ (32 * as.length) := by
        rw [← pow_add]
        congr 1
        simp only [List.length_cons]
        ring
      have hdec := int_digit_decomp (t % 2 ^ 32)
        (t / 2 ^ 32 + (P256.lval as : Int) - P256.lval bs) (2 ^ (32 * as.length))
        hr0 hr1 hP
      rw [hfd, hS, hM, hdec.1, hdec.2]
      simp only [Prod.mk.injEq]
      refine ⟨trivial, ?_⟩
      have hm0 : 0 ≤ (t / 2 ^ 32 + (P256.lval as : Int) - P256.lval bs) % 2 ^ (32 * as.length) :=
        Int.emod_nonneg _ (ne_of_gt hP)
      rw [Bool.or_assoc, ← Bool.decide_or]
      congr 1
      rw [decide_eq_decide]
      omega

end Theorems5

section Theorems6

/-- `Nat.ldiff 0 n = 0`. -/
theorem ldiff_zero_left (n : Nat) : Nat.ldiff 0 n = 0 := by
  show Nat.bitwise _ 0 n = 0
  rw [Nat.bitwise_zero_left]
  simp

/-- `(-1) | x = -1` for the flag values 0 and 1 (`fips_p256_cmp`'s final
`(int)borrow | notzero`). -/
theorem lor_neg_one_flag (x : Int) (hx : x = 0 ∨ x = 1) : Int.lor (-1) x = -1 := by
  have hm1 : (-1 : Int) = Int.negSucc 0 := rfl
  rcases hx with rfl | rfl
  · rw [hm1, show (0 : Int) = Int.ofNat 0 from rfl]
    simp [Int.lor, ldiff_zero_left]
  · rw [hm1, show (1 : Int) = Int.ofNat 1 from rfl]
    simp [Int.lor, ldiff_zero_left]

/-- `0 | x = x` for the flag values 0 and 1. -/
theorem lor_zero_flag (x : Int) (hx : x = 0 ∨ x = 1) : Int.lor 0 x = x := by
  have h0 : (0 : Int) = Int.ofNat 0 := rfl
  rcases hx with rfl | rfl
  · rw [h0]
    simp [Int.lor]
  · rw [h0, show (1 : Int) = Int.ofNat 1 from rfl]
    simp [Int.lor]

/-- An integer in `[-M, 0)` divides by `M > 0` to `-1`. -/
theorem ediv_neg_one_of_neg (S M : Int) (hM : 0 < M) (h1 : -M ≤ S) (h2 : S < 0) :
    S / M = -1 := by
  have hrw : S = (S + M) + M * (-1) := by ring
  rw [hrw, Int.add_mul_ediv_left _ _ (ne_of_gt hM),
    Int.ediv_eq_zero_of_lt (by omega) (by omega)]
  omega

/-- `fips_p256_cmp` returns the sign of `lval a - lval b` for equal-length
digit lists with in-range digits. -/
theorem fips_p256_cmp_spec (a b : List Nat) (hlen : a.length = b.length)
    (ha : ∀ x ∈ a, x < 2 ^ 32) (hb : ∀ x ∈ b, x < 2 ^ 32) :
    P256.fips_p256_cmp a b =
      (if P256.lval a < P256.lval b then -1
       else if P256.lval a = P256.lval b then 0 else 1) := by
  have hal := lval_lt a ha
  have hbl := lval_lt b hb
  have hM : (0 : Int) < 2 ^ (32 * a.length) := by positivity
  have hS1 : ((P256.lval a : Int) - P256.lval b) < 2 ^ (32 * a.length) := by
    have : (P256.lval a : Int) < 2 ^ (32 * a.length) := by exact_mod_cast hal
    omega
  have hS2 : -(2 ^ (32 * a.length) : Int) ≤ (P256.lval a : Int) - P256.lval b := by
    have : (P256.lval b : Int) < 2 ^ (32 * b.length) := by exact_mod_cast hbl
    rw [← hlen] at this
    omega
  unfold P256.fips_p256_cmp
  rw [cmpLoop_eq a b 0 false hlen]
  rcases lt_trichotomy (P256.lval a) (P256.lval b) with hc | hc | hc
  · rw [if_pos hc]
    have hneg : (0 : Int) + (P256.lval a : Int) - P256.lval b < 0 := by
      have : (P256.lval a : Int) < P256.lval b := by exact_mod_cast hc
      omega
    rw [ediv_neg_one_of_neg _ _ hM (by omega) hneg]
    cases (false || decide ((0 + (P256.lval a : Int) - P256.lval b)
        % 2 ^ (32 * a.length) ≠ 0)) <;>
      simp [lor_neg_one_flag]
  · rw [if_neg (by omega), if_pos hc]
    have hz : (0 : Int) + (P256.lval a : Int) - P256.lval b = 0 := by
      have : (P256.lval a : Int) = P256.lval b := by exact_mod_cast hc
      omega
    rw [hz]
    simp [lor_zero_flag]
  · rw [if_neg (by omega), if_neg (by omega)]
    have hpos : (0 : Int) < 0 + (P256.lval a : Int) - P256.lval b := by
      have : (P256.lval b : Int) < P256.lval a := by exact_mod_cast hc
      omega
    rw [Int.ediv_eq_zero_of_lt (by omega) (by omega),
      Int.emod_eq_of_lt (by omega) (by omega)]
    have hne : ¬((0 : Int) + (P256.lval a : Int) - P256.lval b = 0) := by omega
    dsimp only
    rw [if_pos (by simp; omega)]
    exact lor_zero_flag 1 (Or.inr rfl)

/-- If `fips_p256_cmp a b ≤ 0` under the usual digit conditions, then
`lval a ≤ lval b`. -/
theorem fips_p256_cmp_le (a b : List Nat) (hlen : a.length = b.length)
    (ha : ∀ x ∈ a, x < 2 ^ 32) (hb : ∀ x ∈ b, x < 2 ^ 32)
    (hc : P256.fips_p256_cmp a b ≤ 0) : P256.lval a ≤ P256.lval b := by
  rw [fips_p256_cmp_spec a b hlen ha hb] at hc
  by_contra hgt
  rw [if_neg (by omega), if_neg (by omega)] at hc
  omega

/-- Correctness of the `fips_p256_add_d` digit loop: digit decomposition of
`lval as + carry`, with in-range result digits of the same length. -/
theorem addLoop_spec : ∀ (as : List Nat) (carry : Nat), carry < 2 ^ 32 →
    (∀ x ∈ as, x < 2 ^ 32) →
    P256.lval (P256.addLoop as carry).1
        + 2 ^ (32 * as.length) * (P256.addLoop as carry).2
      = P256.lval as + carry
    ∧ (P256.addLoop as carry).1.length = as.length
    ∧ (P256.addLoop as carry).2 < 2 ^ 32
    ∧ (∀ x ∈ (P256.addLoop as carry).1, x < 2 ^ 32) := by
  intro as
  induction as with
  | nil =>
    intro carry hc _
    simp [P256.addLoop, P256.lval]
    omega
  | cons a as ih =>
    intro carry hc hx
    have hax : a < 2 ^ 32 := hx a (List.mem_cons_self a as)
    have ht : carry + a < 2 ^ 33 := by omega
    have hd : (carry + a) / 2 ^ 32 < 2 ^ 32 := by omega
    obtain ⟨ih1, ih2, ih3, ih4⟩ :=
      ih ((carry + a) / 2 ^ 32) hd (fun x hxx => hx x (List.mem_cons_of_mem a hxx))
    refine ⟨?_, ?_, ?_, ?_⟩
    · simp only [P256.addLoop, P256.lval, List.length_cons]
      have hpow : 2 ^ (32 * (as.length + 1)) = 2 ^ 32 * 2 ^ (32 * as.length) := by
        rw [← pow_add]; ring_nf
      rw [hpow, mul_assoc]
      omega
    · simp only [P256.addLoop, List.length_cons]
      simpa using ih2
    · simpa [P256.addLoop] using ih3
    · intro x hxm
      simp only [P256.addLoop] at hxm
      rcases List.mem_cons.mp hxm with h | h
      · omega
      · exact ih4 x h

end Theorems6

section Theorems7

/-- Bytes produced by the generate output loop are HMAC-output bytes:
below 256 and exactly `rem` of them (given enough fuel). -/
theorem genLoopAux_out (h : Drbg.Hmac)
    (hb : ∀ k v, ∀ x ∈ h k v, x < 256)
    (hl : ∀ k v, (h k v).length = 32) :
    ∀ (fuel : Nat) (ctx : Drbg.DRBG) (rem : Nat), rem ≤ fuel →
    (Drbg.genLoopAux h fuel ctx rem).2.length = rem
    ∧ ∀ x ∈ (Drbg.genLoopAux h fuel ctx rem).2, x < 256 := by
  intro fuel
  induction fuel with
  | zero =>
    intro ctx rem hr
    have : rem = 0 := by omega
    subst this
    simp [Drbg.genLoopAux]
  | succ fuel ih =>
    intro ctx rem hr
    rw [Drbg.genLoopAux]
    by_cases h0 : rem = 0
    · simp [h0]
    · rw [if_neg h0]
      simp only []
      have hlV : (Drbg.updateV h ctx).V.length = 32 := hl _ _
      have hn32 : min rem 32 ≤ 32 := Nat.min_le_right _ _
      have hn1 : 1 ≤ min rem 32 := by omega
      have htake : ((Drbg.updateV h ctx).V.take (min rem 32)).length = min rem 32 := by
        rw [List.length_take, hlV]
        omega
      obtain ⟨ihl, ihb⟩ := ih (Drbg.updateV h ctx) (rem - min rem 32) (by omega)
      constructor
      · rw [List.length_append, htake, ihl]
        omega
      · intro x hx
        rcases List.mem_append.mp hx with hx | hx
        · exact hb _ _ x (List.mem_of_mem_take hx)
        · exact ihb x hx

/-- `DRBG_generate` cannot report success without producing output. -/
theorem DRBG_generate_zero_some (h : Drbg.Hmac) (ctx : Drbg.DRBG)
    (len : Nat) (input : List Nat) (ctx2 : Drbg.DRBG)
    (hg : Drbg.DRBG_generate h ctx len input = (0, ctx2, none)) : False := by
  unfold Drbg.DRBG_generate at hg
  by_cases h1 : len > 7500 / 8
  · rw [if_pos h1] at hg
    simp at hg
  · rw [if_neg h1] at hg
    by_cases h2 : ctx.reseed_counter ≥ 10000
    · rw [if_pos h2] at hg
      simp at hg
    · rw [if_neg h2] at hg
      simp at hg

/-- `DRBG_generate` output consists of `len` HMAC-engine bytes. -/
theorem DRBG_generate_out (h : Drbg.Hmac)
    (hb : ∀ k v, ∀ x ∈ h k v, x < 256)
    (hl : ∀ k v, (h k v).length = 32)
    (ctx : Drbg.DRBG) (len : Nat) (input : List Nat)
    (c : Nat) (ctx2 : Drbg.DRBG) (o : List Nat)
    (hg : Drbg.DRBG_generate h ctx len input = (c, ctx2, some o)) :
    o.length = len ∧ ∀ x ∈ o, x < 256 := by
  unfold Drbg.DRBG_generate at hg
  by_cases h1 : len > 7500 / 8
  · rw [if_pos h1] at hg
    simp at hg
  · rw [if_neg h1] at hg
    by_cases h2 : ctx.reseed_counter ≥ 10000
    · rw [if_pos h2] at hg
      simp at hg
    · rw [if_neg h2] at hg
      simp only [Prod.mk.injEq, Option.some.injEq] at hg
      obtain ⟨-, -, ho⟩ := hg
      subst ho
      exact genLoopAux_out h hb hl len _ len (le_refl len)

/-- Digits built from bytes are 32-bit digits. -/
theorem bytesToP256_bounds : ∀ (o : List Nat), (∀ x ∈ o, x < 256) →
    ∀ d ∈ P256.bytesToP256 o, d < 2 ^ 32
  | b0 :: b1 :: b2 :: b3 :: rest, hx, d, hd => by
    rw [P256.bytesToP256] at hd
    rcases List.mem_cons.mp hd with hdig | hdig
    · have h0 : b0 < 256 := hx b0 (by simp)
      have h1 : b1 < 256 := hx b1 (by simp)
      have h2 : b2 < 256 := hx b2 (by simp)
      have h3 : b3 < 256 := hx b3 (by simp)
      omega
    · exact bytesToP256_bounds rest
        (fun x hxx => hx x (by simp [hxx])) d hdig
  | [], _, d, hd => by simp [P256.bytesToP256] at hd
  | [b0], _, d, hd => by simp [P256.bytesToP256] at hd
  | [b0, b1], _, d, hd => by simp [P256.bytesToP256] at hd
  | [b0, b1, b2], _, d, hd => by simp [P256.bytesToP256] at hd

/-- Digit count of `bytesToP256` is the byte count over 4. -/
theorem bytesToP256_length : ∀ (o : List Nat),
    (P256.bytesToP256 o).length = o.length / 4
  | b0 :: b1 :: b2 :: b3 :: rest => by
    rw [P256.bytesToP256]
    simp only [List.length_cons]
    rw [bytesToP256_length rest]
    omega
  | [] => by simp [P256.bytesToP256]
  | [b0] => by simp [P256.bytesToP256]
  | [b0, b1] => by simp [P256.bytesToP256]
  | [b0, b1, b2] => by simp [P256.bytesToP256]

end Theorems7

section Theorems8

/-- When the candidate loop of `fips_p256_pick` reports success, the
accepted candidate has 8 in-range digits and compares at most equal to
`n - 2`. -/
theorem pickLoop_success (h : Drbg.Hmac) (data : List Nat)
    (hb : ∀ k v, ∀ x ∈ h k v, x < 256) (hl : ∀ k v, (h k v).length = 32) :
    ∀ (fuel : Nat) (drbg : Drbg.DRBG) (tmp0 tmp : List Nat) (d2 : Drbg.DRBG),
    P256.pickLoop h data fuel drbg tmp0 = some (0, tmp, d2) →
    tmp.length = 8 ∧ (∀ x ∈ tmp, x < 2 ^ 32)
    ∧ P256.fips_p256_cmp tmp P256.FIPS_SECP256r1_nMin2 ≤ 0 := by
  intro fuel
  induction fuel with
  | zero =>
    intro drbg tmp0 tmp d2 hp
    simp [P256.pickLoop] at hp
  | succ fuel ih =>
    intro drbg tmp0 tmp d2 hp
    rw [P256.pickLoop] at hp
    rcases hgen : Drbg.DRBG_generate h drbg 32 data with ⟨c, drbg2, o⟩
    rw [hgen] at hp
    rcases c with _ | c
    · rcases o with _ | ob
      · exact absurd hgen (fun hg => DRBG_generate_zero_some h drbg 32 data drbg2 hg)
      · simp only [] at hp
        by_cases hcmp :
            P256.fips_p256_cmp (P256.bytesToP256 ob) P256.FIPS_SECP256r1_nMin2 > 0
        · rw [if_pos hcmp] at hp
          exact ih drbg2 (P256.bytesToP256 ob) tmp d2 hp
        · rw [if_neg hcmp] at hp
          simp only [Option.some.injEq, Prod.mk.injEq] at hp
          obtain ⟨-, htmp, -⟩ := hp
          subst htmp
          obtain ⟨hol, hob⟩ := DRBG_generate_out h hb hl drbg 32 data 0 drbg2 ob hgen
          refine ⟨?_, ?_, ?_⟩
          · rw [bytesToP256_length ob, hol]
          · exact bytesToP256_bounds ob hob
          · omega
    · simp at hp
end Theorems8

section Theorems9

/-- C9: whenever `fips_p256_pick` returns success (result 0), the scalar it
writes lies in `[1, n-1]` for the P-256 order `n`; moreover every accepted
candidate is at most `n - 2` and its final `+1` produces no carry out of
the 256-bit result.  `h` ranges over byte-valued 32-byte HMAC engines. -/
theorem fips_p256_pick_in_range (h : Drbg.Hmac) (fuel : Nat)
    (drbg : Drbg.DRBG) (data tmp0 out : List Nat)
    (hb : ∀ k v, ∀ x ∈ h k v, x < 256)
    (hl : ∀ k v, (h k v).length = 32)
    (hp : P256.fips_p256_pick h fuel drbg data tmp0 = some (0, out)) :
    (1 ≤ P256.lval out ∧ P256.lval out ≤ P256.lval P256.FIPS_SECP256r1_n - 1)
    ∧ ∀ (tmp : List Nat) (d2 : Drbg.DRBG),
        P256.pickLoop h data fuel drbg tmp0 = some (0, tmp, d2) →
        P256.lval tmp ≤ P256.lval P256.FIPS_SECP256r1_n - 2
        ∧ (P256.fips_p256_add_d tmp 1).2 = 0
        ∧ P256.lval (P256.fips_p256_add_d tmp 1).1 = P256.lval tmp + 1 := by
  have hn2len : P256.FIPS_SECP256r1_nMin2.length = 8 := rfl
  have hn2dig : ∀ x ∈ P256.FIPS_SECP256r1_nMin2, x < 2 ^ 32 := by decide
  have hn2val : P256.lval P256.FIPS_SECP256r1_nMin2
      = P256.lval P256.FIPS_SECP256r1_n - 2 := by decide
  have hnlt : P256.lval P256.FIPS_SECP256r1_n < 2 ^ 256 := by decide
  have hn3 : 3 ≤ P256.lval P256.FIPS_SECP256r1_n := by decide
  -- analyze the loop result
  unfold P256.fips_p256_pick at hp
  rcases hloop : P256.pickLoop h data fuel drbg tmp0 with _ | ⟨⟨res, tmp, d2⟩⟩
  · rw [hloop] at hp
    simp at hp
  · rw [hloop] at hp
    simp only [Option.some.injEq, Prod.mk.injEq] at hp
    obtain ⟨hres, hout⟩ := hp
    subst hres
    obtain ⟨hlen8, hdig, hcmp⟩ :=
      pickLoop_success h data hb hl fuel drbg tmp0 tmp d2 hloop
    have hle : P256.lval tmp ≤ P256.lval P256.FIPS_SECP256r1_nMin2 :=
      fips_p256_cmp_le tmp P256.FIPS_SECP256r1_nMin2
        (by rw [hlen8, hn2len]) hdig hn2dig hcmp
    obtain ⟨hadd, haddlen, hcar, hadddig⟩ := addLoop_spec tmp 1 (by norm_num) hdig
    have hlt256 : P256.lval (P256.addLoop tmp 1).1 < 2 ^ (32 * tmp.length) := by
      have := lval_lt (P256.addLoop tmp 1).1 hadddig
      rw [haddlen] at this
      exact this
    have hpow : (2 : Nat) ^ (32 * tmp.length) = 2 ^ 256 := by rw [hlen8]
    rw [hpow] at hadd hlt256
    have hcarry0 : (P256.addLoop tmp 1).2 = 0 := by
      rcases Nat.eq_zero_or_pos (P256.addLoop tmp 1).2 with hz | hpos
      · exact hz
      · exfalso
        omega
    have hval : P256.lval (P256.addLoop tmp 1).1 = P256.lval tmp + 1 := by
      rw [hcarry0] at hadd
      omega
    constructor
    · rw [← hout]
      unfold P256.fips_p256_add_d
      rw [hval]
      omega
    · intro tmp2 d22 hloop2
      simp only [Option.some.injEq, Prod.mk.injEq] at hloop2
      obtain ⟨-, htmp2, -⟩ := hloop2
      subst htmp2
      refine ⟨by omega, ?_, ?_⟩
      · unfold P256.fips_p256_add_d
        exact hcarry0
      · unfold P256.fips_p256_add_d
        exact hval

/-- The constant-zero HMAC fixture produces bytes. -/
theorem h0_bytes : ∀ k v, ∀ x ∈ Fix.h0 k v, x < 256 := by
  intro k v x hx
  rw [Fix.h0] at hx
  simp [List.eq_of_mem_replicate hx]

/-- The constant-zero HMAC fixture produces 32 bytes. -/
theorem h0_len : ∀ k v, (Fix.h0 k v).length = 32 := by
  intro k v
  rw [Fix.h0]
  simp

/-- Witness for C9: one loop iteration with the constant-zero HMAC accepts
the candidate 0 and yields the scalar 1. -/
theorem fips_p256_pick_in_range_witness :
    (1 ≤ P256.lval [1, 0, 0, 0, 0, 0, 0, 0]
      ∧ P256.lval [1, 0, 0, 0, 0, 0, 0, 0] ≤ P256.lval P256.FIPS_SECP256r1_n - 1)
    ∧ ∀ (tmp : List Nat) (d2 : Drbg.DRBG),
        P256.pickLoop Fix.h0 [] 1 Fix.c0 [] = some (0, tmp, d2) →
        P256.lval tmp ≤ P256.lval P256.FIPS_SECP256r1_n - 2
        ∧ (P256.fips_p256_add_d tmp 1).2 = 0
        ∧ P256.lval (P256.fips_p256_add_d tmp 1).1 = P256.lval tmp + 1 :=
  fips_p256_pick_in_range Fix.h0 1 Fix.c0 [] [] [1, 0, 0, 0, 0, 0, 0, 0]
    h0_bytes h0_len (by decide)

end Theorems9
